import Mathlib

/-!
Verification of the choreographed saga pipeline (funds transfer via event
choreography): a shallow embedding of the six handlers — the HTTP transfer
initiator, the Deposit/Withdraw step processors, and the Deposit/Withdraw
compensators — together with the JSON wire codec they rely on.

JSON values are modelled by a small AST (`Json`) covering the fragment the
saga's wire format uses: strings, non-negative integral numbers, and flat
objects with scalar fields.  `serializeJson` models `JSON.stringify` on this
fragment and `jsonParseChars` models `JSON.parse` on it (rejecting anything
outside the fragment or with trailing input, as a decode error).
-/

namespace Saga

/-- The JSON fragment used by the saga wire format: strings, natural-number
numerics and flat objects. -/
inductive Json where
  | str : String → Json
  | num : Nat → Json
  | obj : List (String × Json) → Json
deriving Repr

/-- JavaScript truthiness of a JSON value: empty string and zero are falsy. -/
def Json.truthy : Json → Bool
  | .str s => s ≠ ""
  | .num n => n ≠ 0
  | .obj _ => true

/-- Truthiness of a possibly-absent (`undefined`) value. -/
def truthyOpt : Option Json → Bool
  | none => false
  | some j => j.truthy

/-- The properties visible when destructuring a parsed JSON value: objects
expose their fields; strings and numbers expose none of the saga's keys. -/
def jsFields : Json → List (String × Json)
  | .obj fs => fs
  | _ => []

/-- Property lookup, modelling `const { k } = parsedMessage`. -/
def jsGet : List (String × Json) → String → Option Json
  | [], _ => none
  | (k, v) :: rest, key => if k = key then some v else jsGet rest key

/-! ### Serialization (the fragment of `JSON.stringify`) -/

/-- Escape a character for a JSON string literal. -/
def escapeChar (c : Char) : List Char :=
  if c = '"' ∨ c = '\\' then ['\\', c] else [c]

/-- Escape the body of a JSON string literal. -/
def escapeChars : List Char → List Char
  | [] => []
  | c :: cs => escapeChar c ++ escapeChars cs

/-- Serialize a string as a quoted, escaped JSON string literal. -/
def serializeStr (s : String) : List Char :=
  '"' :: (escapeChars s.data ++ ['"'])

/-- The decimal digit characters. -/
def digitToChar (d : Nat) : Char :=
  ['0', '1', '2', '3', '4', '5', '6', '7', '8', '9'].getD d '0'

/-- Numeric value of a digit character. -/
def charToDigit (c : Char) : Nat := c.toNat - 48

/-- Decimal representation of a natural number. -/
def natChars (n : Nat) : List Char :=
  if n = 0 then ['0'] else ((Nat.digits 10 n).map digitToChar).reverse

mutual

/-- Serialize a JSON value (the fragment of `JSON.stringify`). -/
def serializeJson : Json → List Char
  | .str s => serializeStr s
  | .num n => natChars n
  | .obj fs => '{' :: (serializeFields fs ++ ['}'])

/-- Serialize the comma-separated field list of a JSON object. -/
def serializeFields : List (String × Json) → List Char
  | [] => []
  | [(k, v)] => serializeStr k ++ ':' :: serializeJson v
  | (k, v) :: rest => serializeStr k ++ ':' :: (serializeJson v ++ ',' :: serializeFields rest)

end

/-! ### Parsing (the fragment of `JSON.parse`) -/

/-- Parse the body of a JSON string literal after the opening quote, up to and
including the closing quote; returns the unescaped content and the rest. -/
def parseStrAux : List Char → Option (List Char × List Char)
  | [] => none
  | '"' :: rest => some ([], rest)
  | '\\' :: [] => none
  | '\\' :: d :: rest' =>
    match parseStrAux rest' with
    | some (s, r) => some (d :: s, r)
    | none => none
  | c :: rest =>
    match parseStrAux rest with
    | some (s, r) => some (c :: s, r)
    | none => none

/-- Parse a leading run of decimal digits as a number. -/
def parseNumber (cs : List Char) : Option (Json × List Char) :=
  let ds := cs.takeWhile (fun c => c.isDigit)
  if ds.isEmpty then none
  else some (.num (ds.foldl (fun a c => a * 10 + charToDigit c) 0),
             cs.dropWhile (fun c => c.isDigit))

/-- Parse a scalar JSON value: a string literal or a number. -/
def parseScalar : List Char → Option (Json × List Char)
  | [] => none
  | c :: rest =>
    if c = '"' then
      match parseStrAux rest with
      | some (s, r) => some (.str (String.mk s), r)
      | none => none
    else parseNumber (c :: rest)

/-- Parse the nonempty field list of a flat JSON object after the opening
brace, up to and including the closing brace; `fuel` bounds the number of
fields. -/
def parseFieldsAux : Nat → List Char → Option (List (String × Json) × List Char)
  | 0, _ => none
  | fuel + 1, cs =>
    match cs with
    | '"' :: rest =>
      match parseStrAux rest with
      | some (k, r1) =>
        match r1 with
        | ':' :: r2 =>
          match parseScalar r2 with
          | some (v, r3) =>
            match r3 with
            | ',' :: r4 =>
              match parseFieldsAux fuel r4 with
              | some (fs, r5) => some ((String.mk k, v) :: fs, r5)
              | none => none
            | '}' :: r4 => some ([(String.mk k, v)], r4)
            | _ => none
          | none => none
        | _ => none
      | none => none
    | _ => none

/-- Parse a complete JSON document (the fragment: scalar, or flat object),
rejecting trailing input. -/
def jsonParseChars (cs : List Char) : Option Json :=
  match cs with
  | '{' :: rest =>
    if rest = ['}'] then some (.obj [])
    else
      match parseFieldsAux rest.length rest with
      | some (fs, []) => some (.obj fs)
      | _ => none
  | _ =>
    match parseScalar cs with
    | some (j, []) => some j
    | _ => none

/-- `JSON.parse` on a string message. -/
def jsonParse (s : String) : Option Json := jsonParseChars s.data

/-- A scalar JSON value: a string or a number. -/
def Json.isScalar : Json → Bool
  | .obj _ => false
  | _ => true

/-! ### Codec round-trip lemmas -/

theorem String_mk_data (s : String) : String.mk s.data = s := rfl

theorem parseStrAux_escape (s rest : List Char) :
    parseStrAux (escapeChars s ++ '"' :: rest) = some (s, rest) := by
  induction s with
  | nil => simp [escapeChars, parseStrAux]
  | cons c cs ih =>
    by_cases h : c = '"' ∨ c = '\\'
    · simp [escapeChars, escapeChar, h, parseStrAux, ih]
    · push_neg at h
      obtain ⟨h1, h2⟩ := h
      simp [escapeChars, escapeChar, h1, h2, parseStrAux, ih]

theorem charToDigit_digitToChar {d : Nat} (h : d < 10) :
    charToDigit (digitToChar d) = d := by
  interval_cases d <;> rfl

theorem isDigit_digitToChar {d : Nat} (h : d < 10) :
    (digitToChar d).isDigit = true := by
  interval_cases d <;> rfl

theorem natChars_ne_nil (n : Nat) : natChars n ≠ [] := by
  unfold natChars
  split
  · simp
  · rename_i h
    simp only [ne_eq, List.reverse_eq_nil_iff, List.map_eq_nil_iff]
    exact Nat.digits_ne_nil_iff_ne_zero.mpr h

theorem natChars_all_digits (n : Nat) : ∀ c ∈ natChars n, c.isDigit = true := by
  intro c hc
  unfold natChars at hc
  split at hc
  · simp at hc
    subst hc
    rfl
  · rw [List.mem_reverse, List.mem_map] at hc
    obtain ⟨d, hd, rfl⟩ := hc
    exact isDigit_digitToChar (Nat.digits_lt_base (by norm_num) hd)

theorem takeWhile_dropWhile_append {p : Char → Bool} (l r : List Char)
    (hl : ∀ c ∈ l, p c = true) (hr : ∀ c, r.head? = some c → p c = false) :
    (l ++ r).takeWhile p = l ∧ (l ++ r).dropWhile p = r := by
  induction l with
  | nil =>
    cases r with
    | nil => simp
    | cons c r' =>
      have := hr c rfl
      simp [List.takeWhile, List.dropWhile, this]
  | cons c cs ih =>
    have hc := hl c (by simp)
    have := ih (fun x hx => hl x (by simp [hx]))
    simp [List.takeWhile, List.dropWhile, hc, this]

theorem foldr_eq_ofDigits (l : List Nat) :
    l.foldr (fun d a => a * 10 + d) 0 = Nat.ofDigits 10 l := by
  induction l with
  | nil => simp [Nat.ofDigits]
  | cons d l ih => simp [Nat.ofDigits_cons, ih]; ring

theorem natChars_foldl (n : Nat) :
    (natChars n).foldl (fun a c => a * 10 + charToDigit c) 0 = n := by
  by_cases h0 : n = 0
  · subst h0; rfl
  · unfold natChars
    rw [if_neg h0, ← List.map_reverse, List.foldl_map]
    rw [List.foldl_ext (fun a d => a * 10 + charToDigit (digitToChar d))
      (fun a d => a * 10 + d) 0
      (fun a d hd => by
        simp [charToDigit_digitToChar
          (Nat.digits_lt_base (by norm_num) (List.mem_reverse.mp hd))])]
    rw [List.foldl_reverse]
    exact (foldr_eq_ofDigits _).trans (Nat.ofDigits_digits 10 n)

theorem parseNumber_natChars (n : Nat) (rest : List Char)
    (hrest : ∀ c, rest.head? = some c → c.isDigit = false) :
    parseNumber (natChars n ++ rest) = some (.num n, rest) := by
  obtain ⟨htake, hdrop⟩ :=
    takeWhile_dropWhile_append (natChars n) rest (natChars_all_digits n) hrest
  simp only [parseNumber, htake, hdrop]
  rw [if_neg (by simp [List.isEmpty_iff, natChars_ne_nil])]
  rw [natChars_foldl]

theorem parseScalar_serialize (v : Json) (hv : v.isScalar = true) (rest : List Char)
    (hrest : ∀ c, rest.head? = some c → c.isDigit = false) :
    parseScalar (serializeJson v ++ rest) = some (v, rest) := by
  cases v with
  | str s =>
    show parseScalar ('"' :: (escapeChars s.data ++ ['"']) ++ rest) = _
    rw [List.cons_append, List.append_assoc]
    simp [parseScalar, parseStrAux_escape, String_mk_data]
  | num n =>
    show parseScalar (natChars n ++ rest) = _
    obtain ⟨c, l', hl⟩ : ∃ c l', natChars n = c :: l' := by
      cases h : natChars n with
      | nil => exact absurd h (natChars_ne_nil n)
      | cons c l' => exact ⟨c, l', rfl⟩
    have hcd : c.isDigit = true := natChars_all_digits n c (by rw [hl]; simp)
    have hcq : c ≠ '"' := by
      intro h; rw [h] at hcd; simp [Char.isDigit] at hcd
    rw [hl, List.cons_append]
    rw [show parseScalar (c :: (l' ++ rest)) = parseNumber (c :: (l' ++ rest)) by
      simp [parseScalar, hcq]]
    rw [← List.cons_append, ← hl]
    exact parseNumber_natChars n rest hrest
  | obj fs => simp [Json.isScalar] at hv

theorem parseFieldsAux_serialize :
    ∀ (fs : List (String × Json)) (fuel : Nat) (rest : List Char), fs ≠ [] →
      (∀ kv ∈ fs, (kv.2).isScalar = true) → fs.length ≤ fuel →
      parseFieldsAux fuel (serializeFields fs ++ '}' :: rest) = some (fs, rest)
  | [], _, _, hne, _, _ => absurd rfl hne
  | [(k, v)], fuel, rest, _, hs, hfuel => by
    have hf : 1 ≤ fuel := by simpa using hfuel
    obtain ⟨m, rfl⟩ : ∃ m, fuel = m + 1 := ⟨fuel - 1, by omega⟩
    rw [show serializeFields [(k, v)] ++ '}' :: rest =
      '"' :: (escapeChars k.data ++ '"' :: (':' :: (serializeJson v ++ '}' :: rest))) from by
      simp [serializeFields, serializeStr]]
    simp only [parseFieldsAux, parseStrAux_escape]
    rw [parseScalar_serialize v (hs (k, v) (by simp)) ('}' :: rest)
      (fun c hc => by simp at hc; rw [← hc]; rfl)]
    simp [String_mk_data]
  | (k, v) :: f2 :: fs', fuel, rest, _, hs, hfuel => by
    have hf : 1 ≤ fuel := by simp at hfuel; omega
    obtain ⟨m, rfl⟩ : ∃ m, fuel = m + 1 := ⟨fuel - 1, by omega⟩
    rw [show serializeFields ((k, v) :: f2 :: fs') ++ '}' :: rest =
      '"' :: (escapeChars k.data ++ '"' :: (':' :: (serializeJson v ++
        ',' :: (serializeFields (f2 :: fs') ++ '}' :: rest)))) from by
      simp [serializeFields, serializeStr]]
    simp only [parseFieldsAux, parseStrAux_escape]
    rw [parseScalar_serialize v (hs (k, v) (by simp))
      (',' :: (serializeFields (f2 :: fs') ++ '}' :: rest))
      (fun c hc => by simp at hc; rw [← hc]; rfl)]
    have ih := parseFieldsAux_serialize (f2 :: fs') m rest (by simp)
      (fun kv hkv => hs kv (by simp [hkv])) (by simp at hfuel ⊢; omega)
    simp [ih, String_mk_data]

theorem serializeFields_head (fs : List (String × Json)) (hne : fs ≠ []) :
    ∃ t, serializeFields fs = '"' :: t := by
  match fs with
  | [] => exact absurd rfl hne
  | [(k, v)] => exact ⟨_, rfl⟩
  | (k, v) :: f2 :: fs' => exact ⟨_, rfl⟩

theorem length_serializeFields (fs : List (String × Json)) :
    fs.length ≤ (serializeFields fs).length := by
  match fs with
  | [] => simp [serializeFields]
  | [(k, v)] => simp [serializeFields, serializeStr]
  | (k, v) :: f2 :: fs' =>
    have ih := length_serializeFields (f2 :: fs')
    simp [serializeFields, serializeStr] at ih ⊢
    omega

theorem jsonParseChars_serialize_obj (fs : List (String × Json)) (hne : fs ≠ [])
    (hs : ∀ kv ∈ fs, (kv.2).isScalar = true) :
    jsonParseChars (serializeJson (.obj fs)) = some (.obj fs) := by
  obtain ⟨t, ht⟩ := serializeFields_head fs hne
  show jsonParseChars ('{' :: (serializeFields fs ++ ['}'])) = _
  have hfuel : fs.length ≤ (serializeFields fs ++ ['}']).length := by
    have := length_serializeFields fs
    simp only [List.length_append, List.length_cons, List.length_nil]
    omega
  have hparse := parseFieldsAux_serialize fs (serializeFields fs ++ ['}']).length [] hne hs hfuel
  rw [show (serializeFields fs ++ ['}'] : List Char) = serializeFields fs ++ '}' :: [] from rfl]
    at hparse
  simp only [jsonParseChars]
  rw [if_neg (show ¬(serializeFields fs ++ ['}'] : List Char) = ['}'] from by
    rw [ht]; intro h; injection h with h1 h2; exact absurd h2 (by simp))]
  rw [show (serializeFields fs ++ ['}'] : List Char) = serializeFields fs ++ '}' :: [] from rfl]
  rw [hparse]

theorem jsonParseChars_serialize_str (s : String) :
    jsonParseChars (serializeJson (.str s)) = some (.str s) := by
  show jsonParseChars ('"' :: (escapeChars s.data ++ ['"'])) = _
  have hstep : jsonParseChars ('"' :: (escapeChars s.data ++ ['"'])) =
      (match parseScalar ('"' :: (escapeChars s.data ++ ['"'])) with
        | some (j, []) => some j
        | _ => none) := rfl
  rw [hstep]
  rw [show (escapeChars s.data ++ ['"'] : List Char) = escapeChars s.data ++ '"' :: [] from rfl]
  simp [parseScalar, parseStrAux_escape, String_mk_data]

/-! ### The saga event vocabulary and its wire format -/

/-- The saga's event vocabulary, one constructor per wire shape:
`StartTransfer` carries `fromAccount`, `toAccount` and `amount`; the deposit
outcomes carry `toAccount` and `amount`; the withdraw outcomes carry
`fromAccount` and `amount`. -/
inductive SagaEvent where
  | startTransfer (fromAccount toAccount : String) (amount : Nat)
  | depositCompleted (toAccount : String) (amount : Nat)
  | depositCompensation (toAccount : String) (amount : Nat)
  | withdrawCompleted (fromAccount : String) (amount : Nat)
  | withdrawCompensation (fromAccount : String) (amount : Nat)
deriving Repr

/-- The JSON body of a saga event, with fields in the order the producers
write their object literals. -/
def eventToJson : SagaEvent → Json
  | .startTransfer f t a =>
    .obj [("type", .str "StartTransfer"), ("fromAccount", .str f),
          ("toAccount", .str t), ("amount", .num a)]
  | .depositCompleted t a =>
    .obj [("type", .str "DepositCompleted"), ("toAccount", .str t), ("amount", .num a)]
  | .depositCompensation t a =>
    .obj [("type", .str "DepositCompensation"), ("toAccount", .str t), ("amount", .num a)]
  | .withdrawCompleted f a =>
    .obj [("type", .str "WithdrawCompleted"), ("fromAccount", .str f), ("amount", .num a)]
  | .withdrawCompensation f a =>
    .obj [("type", .str "WithdrawCompensation"), ("fromAccount", .str f), ("amount", .num a)]

/-- First serialization pass: the event's logical JSON document. -/
def serializeEvent (e : SagaEvent) : String :=
  String.mk (serializeJson (eventToJson e))

/-- Second serialization pass: the transport wraps the logical JSON document
as a string value inside the envelope. -/
def encodeTransport (e : SagaEvent) : String :=
  String.mk (serializeJson (.str (serializeEvent e)))

/-- Read a typed saga event back off a parsed JSON value, the way the
consumers destructure `type` and the account/amount fields. -/
def decodeEventJson (j : Json) : Option SagaEvent :=
  let fs := jsFields j
  match jsGet fs "type" with
  | some (.str "StartTransfer") =>
    match jsGet fs "fromAccount", jsGet fs "toAccount", jsGet fs "amount" with
    | some (.str f), some (.str t), some (.num a) => some (.startTransfer f t a)
    | _, _, _ => none
  | some (.str "DepositCompleted") =>
    match jsGet fs "toAccount", jsGet fs "amount" with
    | some (.str t), some (.num a) => some (.depositCompleted t a)
    | _, _ => none
  | some (.str "DepositCompensation") =>
    match jsGet fs "toAccount", jsGet fs "amount" with
    | some (.str t), some (.num a) => some (.depositCompensation t a)
    | _, _ => none
  | some (.str "WithdrawCompleted") =>
    match jsGet fs "fromAccount", jsGet fs "amount" with
    | some (.str f), some (.num a) => some (.withdrawCompleted f a)
    | _, _ => none
  | some (.str "WithdrawCompensation") =>
    match jsGet fs "fromAccount", jsGet fs "amount" with
    | some (.str f), some (.num a) => some (.withdrawCompensation f a)
    | _, _ => none
  | _ => none

/-- The consumers' decode step on a delivered message string: one
`JSON.parse` pass followed by destructuring. -/
def decodeEventChars (cs : List Char) : Option SagaEvent :=
  match jsonParseChars cs with
  | some j => decodeEventJson j
  | none => none

/-- Full transport decode: the first `JSON.parse` pass strips the envelope
into the inner string; the second
pass (the consumers' decode) parses that string into the event. -/
def decodeTransport (wire : String) : Option SagaEvent :=
  match jsonParseChars wire.data with
  | some (.str inner) => decodeEventChars inner.data
  | _ => none

theorem jsonParseChars_serialize_event (e : SagaEvent) :
    jsonParseChars (serializeJson (eventToJson e)) = some (eventToJson e) := by
  cases e <;>
    exact jsonParseChars_serialize_obj _ (by simp)
      (by intro kv hkv; fin_cases hkv <;> simp [Json.isScalar])

theorem decodeEventJson_eventToJson (e : SagaEvent) :
    decodeEventJson (eventToJson e) = some e := by
  cases e <;> rfl

/-! ### Handler models

Each handler is embedded as a pure function of its nondeterministic inputs:
`coin` models `Math.random() > 0.2` (the simulated step outcome) and
`sendOk` models whether a `sendBatch` call succeeds (a failing send throws,
is caught by the per-message handler, and publishes nothing).  Messages are
`Option String`: `none` is a null/undefined batch entry, and the empty
string is likewise falsy under the `if (!message)` guard. -/

/-- One iteration of the Deposit Processor's loop
(`src/DepositFunds/index.ts`): skip falsy messages, `JSON.parse` once, skip
non-`StartTransfer` types, skip messages with missing/falsy
`toAccount`/`amount`, then flip the coin and publish exactly one outcome
event carrying the same `toAccount` and `amount`.  Returns the events
actually published for this message. -/
def depositStep (coin sendOk : Bool) (msg : Option String) : List Json :=
  match msg with
  | none => []
  | some s =>
    if s = "" then []
    else
      match jsonParse s with
      | none => []
      | some parsed =>
        let fs := jsFields parsed
        match jsGet fs "type" with
        | some (.str ty) =>
          if ty = "StartTransfer" then
            match jsGet fs "toAccount", jsGet fs "amount" with
            | some tv, some av =>
              if tv.truthy && av.truthy then
                if sendOk then
                  if coin then
                    [.obj [("type", .str "DepositCompleted"),
                           ("toAccount", tv), ("amount", av)]]
                  else
                    [.obj [("type", .str "DepositCompensation"),
                           ("toAccount", tv), ("amount", av)]]
                else []
              else []
            | _, _ => []
          else []
        | _ => []

/-- The Deposit Processor's batch loop: every message is processed
independently; no per-message error aborts the rest. -/
def depositBatch (coin sendOk : Nat → Bool) : Nat → List (Option String) → List Json
  | _, [] => []
  | i, m :: rest => depositStep (coin i) (sendOk i) m ++ depositBatch coin sendOk (i + 1) rest

/-- Result of one Withdraw Processor loop iteration: either the loop
proceeds to the next message, or the handler returns, aborting the rest of
the batch. -/
inductive WithdrawStep where
  | proceed (events : List Json)
  | abort
deriving Repr

/-- One iteration of the Withdraw Processor's loop (the `WithdrawFunds`
handler): like the deposit side but keyed on `fromAccount`, and — unlike
the deposit side — a missing/falsy `fromAccount`/`amount` executes
`return`, aborting the whole remaining batch. -/
def withdrawStep (coin sendOk : Bool) (msg : Option String) : WithdrawStep :=
  match msg with
  | none => .proceed []
  | some s =>
    if s = "" then .proceed []
    else
      match jsonParse s with
      | none => .proceed []
      | some parsed =>
        let fs := jsFields parsed
        match jsGet fs "type" with
        | some (.str ty) =>
          if ty = "StartTransfer" then
            match jsGet fs "fromAccount", jsGet fs "amount" with
            | some fv, some av =>
              if fv.truthy && av.truthy then
                .proceed
                  (if sendOk then
                    if coin then
                      [.obj [("type", .str "WithdrawCompleted"),
                             ("fromAccount", fv), ("amount", av)]]
                    else
                      [.obj [("type", .str "WithdrawCompensation"),
                             ("fromAccount", fv), ("amount", av)]]
                  else [])
              else .abort
            | _, _ => .abort
          else .proceed []
        | _ => .proceed []

/-- The Withdraw Processor's batch loop: returns the published events and
the number of messages the loop examined before exiting. -/
def withdrawBatch (coin sendOk : Nat → Bool) : Nat → List (Option String) → List Json × Nat
  | _, [] => ([], 0)
  | i, m :: rest =>
    match withdrawStep (coin i) (sendOk i) m with
    | .proceed evs =>
      let r := withdrawBatch coin sendOk (i + 1) rest
      (evs ++ r.1, r.2 + 1)
    | .abort => ([], 1)

/-- One iteration of the Withdraw Compensator's loop
(`src/CompensateWithdraw/index.ts`): filters on `type ===
"WithdrawCompensation"`, then destructures and validates `toAccount` and
`amount` (note: the source reads `toAccount`, not `fromAccount`), and on
success records the reversal.  Returns the recorded (account, amount)
reversal actions. -/
def compensateWithdrawStep (msg : Option String) : List (Json × Json) :=
  match msg with
  | none => []
  | some s =>
    if s = "" then []
    else
      match jsonParse s with
      | none => []
      | some parsed =>
        let fs := jsFields parsed
        match jsGet fs "type" with
        | some (.str ty) =>
          if ty = "WithdrawCompensation" then
            match jsGet fs "toAccount", jsGet fs "amount" with
            | some tv, some av => if tv.truthy && av.truthy then [(tv, av)] else []
            | _, _ => []
          else []
        | _ => []

/-- The Withdraw Compensator's batch loop: every message independently. -/
def compensateWithdrawBatch : List (Option String) → List (Json × Json)
  | [] => []
  | m :: rest => compensateWithdrawStep m ++ compensateWithdrawBatch rest

/-- One iteration of the Deposit Compensator's loop (the
`CompensateDeposit` handler): filters on `type === "DepositCompensation"`,
validates `toAccount` and `amount`, and records the reversal. -/
def compensateDepositStep (msg : Option String) : List (Json × Json) :=
  match msg with
  | none => []
  | some s =>
    if s = "" then []
    else
      match jsonParse s with
      | none => []
      | some parsed =>
        let fs := jsFields parsed
        match jsGet fs "type" with
        | some (.str ty) =>
          if ty = "DepositCompensation" then
            match jsGet fs "toAccount", jsGet fs "amount" with
            | some tv, some av => if tv.truthy && av.truthy then [(tv, av)] else []
            | _, _ => []
          else []
        | _ => []

/-- The Deposit Compensator's batch loop: every message independently. -/
def compensateDepositBatch : List (Option String) → List (Json × Json)
  | [] => []
  | m :: rest => compensateDepositStep m ++ compensateDepositBatch rest

/-- Observable outcome of one Initiator invocation: the list of `sendBatch`
calls made (each with the event list passed) and the HTTP status set on
`context.res`; `status = none` models an exception escaping the handler
before any response is set. -/
structure HttpResult where
  calls : List (List Json)
  status : Option Nat
deriving Repr

/-- The Transfer Initiator (the `httpTrigger` handler): destructures
`req.body` (throwing if the body is absent), rejects with 400 when any of
`fromAccount`/`toAccount`/`amount` is missing or falsy, otherwise publishes
one `StartTransfer` event and answers 202, or 500 if the publish fails. -/
def httpTrigger (body : Option Json) (publishOk : Bool) : HttpResult :=
  match body with
  | none => { calls := [], status := none }
  | some b =>
    let fs := jsFields b
    match jsGet fs "fromAccount", jsGet fs "toAccount", jsGet fs "amount" with
    | some fv, some tv, some av =>
      if fv.truthy && tv.truthy && av.truthy then
        let ev : Json := .obj [("type", .str "StartTransfer"), ("fromAccount", fv),
                               ("toAccount", tv), ("amount", av)]
        { calls := [[ev]], status := some (if publishOk then 202 else 500) }
      else { calls := [], status := some 400 }
    | _, _, _ => { calls := [], status := some 400 }

/-- Observable outcome of one step-processor invocation: the published
events, the number of loop iterations performed, and whether the `finally`
block released the producer client. -/
structure Invocation where
  events : List Json
  handled : Nat
  producerClosed : Bool
deriving Repr

/-- A full Deposit Processor invocation: acquire a producer client, run the
batch loop inside `try`/`catch`, close the client in `finally`. -/
def runDeposit (coin sendOk : Nat → Bool) (msgs : List (Option String)) : Invocation :=
  { events := depositBatch coin sendOk 0 msgs
    handled := msgs.length
    producerClosed := true }

/-- A full Withdraw Processor invocation: as `runDeposit`, but the loop may
exit early via the validation `return`; the `finally` still runs. -/
def runWithdraw (coin sendOk : Nat → Bool) (msgs : List (Option String)) : Invocation :=
  { events := (withdrawBatch coin sendOk 0 msgs).1
    handled := (withdrawBatch coin sendOk 0 msgs).2
    producerClosed := true }

/-! ### Concrete wire messages used as inputs -/

/-- The wire body the Withdraw Processor emits on failure, exactly as the
spec's wire format prescribes: `fromAccount` plus `amount`. -/
def conformantWithdrawCompensationMsg : String :=
  "\x7b\"type\":\"WithdrawCompensation\",\"fromAccount\":\"A\",\"amount\":100\x7d"

/-- A `WithdrawCompensation` body carrying `toAccount` instead of
`fromAccount` (no producer in the system emits this shape). -/
def swappedWithdrawCompensationMsg : String :=
  "\x7b\"type\":\"WithdrawCompensation\",\"toAccount\":\"B\",\"amount\":100\x7d"

/-- A `StartTransfer` body missing `fromAccount` (invalid for the Withdraw
Processor, valid for none). -/
def noFromStartTransferMsg : String :=
  "\x7b\"type\":\"StartTransfer\",\"toAccount\":\"B\",\"amount\":100\x7d"

/-- A `StartTransfer` body missing `toAccount` (invalid for the Deposit
Processor). -/
def noToStartTransferMsg : String :=
  "\x7b\"type\":\"StartTransfer\",\"fromAccount\":\"A\",\"amount\":100\x7d"

/-- A fully valid `StartTransfer` body. -/
def validStartTransferMsg : String :=
  "\x7b\"type\":\"StartTransfer\",\"fromAccount\":\"A\",\"toAccount\":\"B\",\"amount\":100\x7d"

/-! ### Claims -/

/-- C5: encoding a `SagaEvent` through the two-pass transport wrapping
(serialize the event's JSON document, then wrap that document as a string
value inside the envelope) and decoding it back — the envelope pass
yielding the inner string, the consumers' pass parsing that string — gives
a field-for-field equal event. -/
theorem C5_transport_roundtrip (e : SagaEvent) :
    decodeTransport (encodeTransport e) = some e := by
  simp only [decodeTransport, encodeTransport]
  rw [jsonParseChars_serialize_str]
  show decodeEventChars (serializeEvent e).data = some e
  simp only [decodeEventChars, serializeEvent]
  rw [jsonParseChars_serialize_event]
  exact decodeEventJson_eventToJson e

/-- C8: both step processors release the producer client acquired at the
start of the invocation on every exit path — the `finally` block runs after
a normal batch, after per-message errors, and after the Withdraw
Processor's mid-batch `return`. -/
theorem C8_producer_always_closed (coin sendOk : Nat → Bool)
    (msgs : List (Option String)) :
    (runDeposit coin sendOk msgs).producerClosed = true ∧
    (runWithdraw coin sendOk msgs).producerClosed = true :=
  ⟨rfl, rfl⟩

/-- C9: when the request body is absent, destructuring `req.body` throws
before the missing-field check, so the Initiator sets no response at all
(no structured 400) and publishes nothing. -/
theorem C9_absent_body_throws (publishOk : Bool) :
    httpTrigger none publishOk = { calls := [], status := none } :=
  rfl

/-- C2 (counter-evidence): the Withdraw Compensator rejects the conformant
wire shape.  A `WithdrawCompensation` event carrying truthy `fromAccount`
and `amount` — the shape the spec's wire format and the Withdraw Processor
produce — records no reversal (it is skipped as missing required fields),
while the swapped shape carrying `toAccount` is the one accepted. -/
theorem C2_compensator_rejects_conformant_shape :
    compensateWithdrawStep (some conformantWithdrawCompensationMsg) = [] ∧
    compensateWithdrawStep (some swappedWithdrawCompensationMsg) =
      [(.str "B", .num 100)] :=
  ⟨rfl, rfl⟩

/-- C3 (counter-evidence): in the Withdraw Processor, a `StartTransfer`
message missing `fromAccount` aborts the whole remaining batch: with a
valid sibling after it, the batch publishes nothing and only one message is
examined, although the sibling alone would publish its outcome. -/
theorem C3_withdraw_aborts_sibling :
    (∀ coin sendOk : Nat → Bool,
      withdrawBatch coin sendOk 0
        [some noFromStartTransferMsg, some validStartTransferMsg] = ([], 1)) ∧
    withdrawBatch (fun _ => true) (fun _ => true) 0 [some validStartTransferMsg] =
      ([.obj [("type", .str "WithdrawCompleted"), ("fromAccount", .str "A"),
              ("amount", .num 100)]], 1) :=
  ⟨fun _ _ => rfl, rfl⟩

/-! ### Helper lemmas on invalid messages -/

theorem jsonParse_empty : jsonParse "" = none := rfl

theorem ne_empty_of_parse {s : String} {j : Json} (h : jsonParse s = some j) :
    ¬s = "" := by
  intro he
  subst he
  rw [jsonParse_empty] at h
  exact Option.noConfusion h

theorem withdrawStep_invalid (coin sendOk : Bool) (s : String)
    (fs : List (String × Json))
    (hparse : jsonParse s = some (.obj fs))
    (hty : jsGet fs "type" = some (.str "StartTransfer"))
    (hval : truthyOpt (jsGet fs "fromAccount") = false ∨
            truthyOpt (jsGet fs "amount") = false) :
    withdrawStep coin sendOk (some s) = .abort := by
  have hne := ne_empty_of_parse hparse
  simp only [withdrawStep, hne, if_false, hparse, jsFields, hty, reduceIte]
  cases hf : jsGet fs "fromAccount" with
  | none => simp [hf]
  | some fv =>
    cases ha : jsGet fs "amount" with
    | none => simp [hf, ha]
    | some av =>
      rcases hval with h | h <;> rw [hf] at * <;> rw [ha] at * <;>
        simp [truthyOpt] at h <;> simp [h]

theorem depositStep_invalid (coin sendOk : Bool) (s : String)
    (fs : List (String × Json))
    (hparse : jsonParse s = some (.obj fs))
    (hty : jsGet fs "type" = some (.str "StartTransfer"))
    (hval : truthyOpt (jsGet fs "toAccount") = false ∨
            truthyOpt (jsGet fs "amount") = false) :
    depositStep coin sendOk (some s) = [] := by
  have hne := ne_empty_of_parse hparse
  simp only [depositStep, hne, if_false, hparse, jsFields, hty, reduceIte]
  cases ht : jsGet fs "toAccount" with
  | none => simp [ht]
  | some tv =>
    cases ha : jsGet fs "amount" with
    | none => simp [ht, ha]
    | some av =>
      rcases hval with h | h <;> rw [ht] at * <;> rw [ha] at * <;>
        simp [truthyOpt] at h <;> simp [h]

theorem httpTrigger_rejects (b : Json) (publishOk : Bool)
    (hval : truthyOpt (jsGet (jsFields b) "fromAccount") = false ∨
            truthyOpt (jsGet (jsFields b) "toAccount") = false ∨
            truthyOpt (jsGet (jsFields b) "amount") = false) :
    httpTrigger (some b) publishOk = { calls := [], status := some 400 } := by
  simp only [httpTrigger]
  cases hf : jsGet (jsFields b) "fromAccount" with
  | none => simp [hf]
  | some fv =>
    cases ht : jsGet (jsFields b) "toAccount" with
    | none => simp [hf, ht]
    | some tv =>
      cases ha : jsGet (jsFields b) "amount" with
      | none => simp [hf, ht, ha]
      | some av =>
        rcases hval with h | h | h <;> rw [hf] at * <;> rw [ht] at * <;>
          rw [ha] at * <;> simp [truthyOpt] at h <;> simp [h]

/-! ### Remaining claims -/

/-- C1: for a `StartTransfer` message with present, truthy `toAccount` and
`amount`, the Deposit Processor publishes exactly one outcome event —
`DepositCompleted` on the success flip, `DepositCompensation` on the
failure flip, never zero and never both — carrying the same `toAccount`
and `amount` (the publish is assumed to succeed). -/
theorem C1_deposit_exactly_one_outcome (coin : Bool) (s : String)
    (fs : List (String × Json)) (tv av : Json)
    (hparse : jsonParse s = some (.obj fs))
    (hty : jsGet fs "type" = some (.str "StartTransfer"))
    (htv : jsGet fs "toAccount" = some tv) (hav : jsGet fs "amount" = some av)
    (htvt : tv.truthy = true) (havt : av.truthy = true) :
    depositStep coin true (some s) =
      [.obj [("type",
              .str (if coin then "DepositCompleted" else "DepositCompensation")),
             ("toAccount", tv), ("amount", av)]] := by
  have hne := ne_empty_of_parse hparse
  simp only [depositStep, hne, if_false, hparse, jsFields, hty, reduceIte,
    htv, hav, htvt, havt]
  cases coin <;> simp

/-- Witness for C1 on a concrete valid `StartTransfer` message. -/
theorem C1_witness :
    depositStep true true (some validStartTransferMsg) =
      [.obj [("type", .str "DepositCompleted"), ("toAccount", .str "B"),
             ("amount", .num 100)]] :=
  C1_deposit_exactly_one_outcome true validStartTransferMsg
    [("type", .str "StartTransfer"), ("fromAccount", .str "A"),
     ("toAccount", .str "B"), ("amount", .num 100)]
    (.str "B") (.num 100) rfl rfl rfl rfl rfl rfl

/-- C4: a `StartTransfer` message whose `fromAccount` or `amount` is
missing or falsy makes the Withdraw Processor return, aborting the entire
remaining batch (no events, only that message examined), whereas a message
failing the Deposit Processor's validation is skipped and the rest of the
batch is processed unchanged. -/
theorem C4_withdraw_aborts_deposit_skips
    (coin sendOk : Nat → Bool) (i : Nat)
    (s : String) (fs : List (String × Json))
    (hparse : jsonParse s = some (.obj fs))
    (hty : jsGet fs "type" = some (.str "StartTransfer"))
    (hval : truthyOpt (jsGet fs "fromAccount") = false ∨
            truthyOpt (jsGet fs "amount") = false)
    (rest : List (Option String))
    (s2 : String) (fs2 : List (String × Json))
    (hparse2 : jsonParse s2 = some (.obj fs2))
    (hty2 : jsGet fs2 "type" = some (.str "StartTransfer"))
    (hval2 : truthyOpt (jsGet fs2 "toAccount") = false ∨
             truthyOpt (jsGet fs2 "amount") = false)
    (rest2 : List (Option String)) :
    withdrawBatch coin sendOk i (some s :: rest) = ([], 1) ∧
    depositBatch coin sendOk i (some s2 :: rest2) =
      depositBatch coin sendOk (i + 1) rest2 := by
  constructor
  · simp [withdrawBatch,
      withdrawStep_invalid (coin i) (sendOk i) s fs hparse hty hval]
  · simp [depositBatch,
      depositStep_invalid (coin i) (sendOk i) s2 fs2 hparse2 hty2 hval2]

/-- Witness for C4 on concrete invalid messages with nonempty tails. -/
theorem C4_witness :
    withdrawBatch (fun _ => true) (fun _ => true) 0
      [some noFromStartTransferMsg, some validStartTransferMsg] = ([], 1) ∧
    depositBatch (fun _ => true) (fun _ => true) 0
      [some noToStartTransferMsg, some validStartTransferMsg] =
      depositBatch (fun _ => true) (fun _ => true) 1 [some validStartTransferMsg] :=
  C4_withdraw_aborts_deposit_skips (fun _ => true) (fun _ => true) 0
    noFromStartTransferMsg
    [("type", .str "StartTransfer"), ("toAccount", .str "B"), ("amount", .num 100)]
    rfl rfl (Or.inl rfl) [some validStartTransferMsg]
    noToStartTransferMsg
    [("type", .str "StartTransfer"), ("fromAccount", .str "A"), ("amount", .num 100)]
    rfl rfl (Or.inl rfl) [some validStartTransferMsg]

/-- C6: a transfer request in which any of `fromAccount`, `toAccount`,
`amount` is missing or falsy gets a 400 response and causes no publish
call. -/
theorem C6_initiator_rejects_invalid (b : Json) (publishOk : Bool)
    (hval : truthyOpt (jsGet (jsFields b) "fromAccount") = false ∨
            truthyOpt (jsGet (jsFields b) "toAccount") = false ∨
            truthyOpt (jsGet (jsFields b) "amount") = false) :
    httpTrigger (some b) publishOk = { calls := [], status := some 400 } :=
  httpTrigger_rejects b publishOk hval

/-- Witness for C6 on a request missing `amount`. -/
theorem C6_witness :
    httpTrigger (some (.obj [("fromAccount", .str "A"), ("toAccount", .str "B")]))
      true = { calls := [], status := some 400 } :=
  C6_initiator_rejects_invalid
    (.obj [("fromAccount", .str "A"), ("toAccount", .str "B")]) true
    (Or.inr (Or.inr rfl))

/-- C7: a transfer request with all three fields present and truthy makes
exactly one publish call carrying a single `StartTransfer` event with all
three fields; the response is 202 when the publish succeeds and 500 when it
fails, with no second publish attempt either way. -/
theorem C7_initiator_publishes_once (b : Json) (publishOk : Bool)
    (fv tv av : Json)
    (hf : jsGet (jsFields b) "fromAccount" = some fv) (hft : fv.truthy = true)
    (ht : jsGet (jsFields b) "toAccount" = some tv) (htt : tv.truthy = true)
    (ha : jsGet (jsFields b) "amount" = some av) (hat : av.truthy = true) :
    httpTrigger (some b) publishOk =
      { calls := [[.obj [("type", .str "StartTransfer"), ("fromAccount", fv),
                         ("toAccount", tv), ("amount", av)]]],
        status := some (if publishOk then 202 else 500) } := by
  simp [httpTrigger, hf, ht, ha, hft, htt, hat]

/-- Witness for C7 on a concrete valid request with a failing publish. -/
theorem C7_witness :
    httpTrigger (some (.obj [("fromAccount", .str "A"), ("toAccount", .str "B"),
      ("amount", .num 100)])) false =
      { calls := [[.obj [("type", .str "StartTransfer"), ("fromAccount", .str "A"),
                         ("toAccount", .str "B"), ("amount", .num 100)]]],
        status := some 500 } :=
  C7_initiator_publishes_once
    (.obj [("fromAccount", .str "A"), ("toAccount", .str "B"), ("amount", .num 100)])
    false (.str "A") (.str "B") (.num 100) rfl rfl rfl rfl rfl rfl

/-- C10: presence is checked by truthiness everywhere, so present-but-falsy
fields count as missing: a request with `amount` 0 or an empty-string
`fromAccount` is rejected with 400 and no publish, and a `StartTransfer`
event with `amount` 0 is skipped by the Deposit Processor without any
outcome event. -/
theorem C10_falsy_is_missing (b : Json) (publishOk : Bool)
    (s : String) (fs : List (String × Json)) (coin sendOk : Bool) :
    (jsGet (jsFields b) "amount" = some (.num 0) →
      httpTrigger (some b) publishOk = { calls := [], status := some 400 }) ∧
    (jsGet (jsFields b) "fromAccount" = some (.str "") →
      httpTrigger (some b) publishOk = { calls := [], status := some 400 }) ∧
    (jsonParse s = some (.obj fs) →
      jsGet fs "type" = some (.str "StartTransfer") →
      jsGet fs "amount" = some (.num 0) →
      depositStep coin sendOk (some s) = []) := by
  refine ⟨fun ha => ?_, fun hf => ?_, fun hp hty ha => ?_⟩
  · exact httpTrigger_rejects b publishOk (Or.inr (Or.inr (by rw [ha]; rfl)))
  · exact httpTrigger_rejects b publishOk (Or.inl (by rw [hf]; rfl))
  · exact depositStep_invalid coin sendOk s fs hp hty (Or.inr (by rw [ha]; rfl))

/-- Witness for C10 on concrete falsy-field inputs. -/
theorem C10_witness :
    httpTrigger (some (.obj [("fromAccount", .str "A"), ("toAccount", .str "B"),
      ("amount", .num 0)])) true = { calls := [], status := some 400 } ∧
    httpTrigger (some (.obj [("fromAccount", .str ""), ("toAccount", .str "B"),
      ("amount", .num 100)])) true = { calls := [], status := some 400 } ∧
    depositStep true true
      (some "\x7b\"type\":\"StartTransfer\",\"toAccount\":\"B\",\"amount\":0\x7d") = [] :=
  ⟨(C10_falsy_is_missing
      (.obj [("fromAccount", .str "A"), ("toAccount", .str "B"), ("amount", .num 0)])
      true "\x7b\"type\":\"StartTransfer\",\"toAccount\":\"B\",\"amount\":0\x7d"
      [("type", .str "StartTransfer"), ("toAccount", .str "B"), ("amount", .num 0)]
      true true).1 rfl,
   (C10_falsy_is_missing
      (.obj [("fromAccount", .str ""), ("toAccount", .str "B"), ("amount", .num 100)])
      true "\x7b\"type\":\"StartTransfer\",\"toAccount\":\"B\",\"amount\":0\x7d"
      [("type", .str "StartTransfer"), ("toAccount", .str "B"), ("amount", .num 0)]
      true true).2.1 rfl,
   (C10_falsy_is_missing
      (.obj [("fromAccount", .str "A"), ("toAccount", .str "B"), ("amount", .num 0)])
      true "\x7b\"type\":\"StartTransfer\",\"toAccount\":\"B\",\"amount\":0\x7d"
      [("type", .str "StartTransfer"), ("toAccount", .str "B"), ("amount", .num 0)]
      true true).2.2 rfl rfl rfl⟩

end Saga
